import Mathlib

/-!
# mockKv — shallow embedding and verification

A shallow embedding of the record/stub/verify core of the `mockKv`
test-double library (sources: `whenKv.ts` / `src/unnamed/part_007`
(`ResultsGenerator`, `Expectations`), `src/unnamed/part_003` (`MockedKv`),
`assertKv.ts` (`Assertions`), `util.ts` / `matchers.ts` (matcher
constructors)).

Modelling conventions:
* JS `undefined` is `Option.none`; a JS optional parameter of type `T` is
  `Option T`.
* `Deno.KvKeyPart` is the flat inductive `KeyPart`; `Deno.KvKey` is
  `List KeyPart`.
* A `Matcher<T>` object is its `matches` method: a function
  `Option T → Bool` (matchers in the source are stateless).
* A thrown `Error` is identified by its message (`Err := String`); code
  that returns `T` or throws becomes `Except Err T`.
* Mutation of a field becomes explicit state passing: each method of
  `MockedKv` / `Assertions` takes the state and returns the updated state
  together with its result.
-/

namespace MockKv

/-- A `Deno.KvKeyPart` (string, number, boolean; the other runtime shapes
play no role in the claims). -/
inductive KeyPart where
  | str (s : String)
  | int (n : Int)
  | bool (b : Bool)
deriving DecidableEq, Repr

/-- A `Deno.KvKey`: an array of key parts. -/
abbrev Key := List KeyPart

/-- `Deno.KvConsistencyLevel`. -/
inductive ConsistencyLevel where
  | strong
  | eventual
deriving DecidableEq, Repr

/-- A value stored through the double (`unknown` in the source; a flat
universe suffices for the claims). `null` is a distinguished value. -/
inductive KvValue where
  | null
  | str (s : String)
  | int (n : Int)
  | bool (b : Bool)
deriving DecidableEq, Repr

/-- `Deno.KvEntryMaybe`: `{key, value, versionstamp}` where `value` and
`versionstamp` may be `null` (`versionstamp = none` models `null`). -/
structure KvEntryMaybe where
  key : Key
  value : KvValue
  versionstamp : Option String
deriving DecidableEq, Repr

/-- `Deno.KvCommitResult`: `{ok, versionstamp}`. -/
structure KvCommitResult where
  ok : Bool
  versionstamp : String
deriving DecidableEq, Repr

/-- An `Error`, identified by its message. -/
abbrev Err := String

/-- One element of a `ResultsGenerator`'s `results` array: either a value
to return (`val none` is the JS `undefined` pushed by a zero-argument
`thenReturn()`), or a `Throwable` wrapping an error to raise. -/
inductive QueuedResult (T : Type) where
  | val (v : Option T)
  | throwable (e : Err)
deriving DecidableEq, Repr

/-- The state of a `ResultsGenerator<T>`: its `results` array
(`src/unnamed/part_007`, lines 47–83). -/
abbrev ResultsGenerator (T : Type) := List (QueuedResult T)

namespace ResultsGenerator

/-- `thenReturn(...results)` (`src/unnamed/part_007`, lines 50–56): with
zero arguments it pushes one `undefined`; otherwise it pushes the given
values in order. -/
def thenReturn {T : Type} (g : ResultsGenerator T) (results : List T) :
    ResultsGenerator T :=
  if results.length = 0 then g ++ [QueuedResult.val none]
  else g ++ results.map (fun r => QueuedResult.val (some r))

/-- `thenThrow(...errors)`: pushes one `Throwable` per error, in order. -/
def thenThrow {T : Type} (g : ResultsGenerator T) (errors : List Err) :
    ResultsGenerator T :=
  g ++ errors.map (fun e => QueuedResult.throwable e)

/-- `next()` (`src/unnamed/part_007`, lines 67–82), split into the element
produced and the updated `results` array: an empty array yields nothing
and stays empty; a one-element array yields its element without removing
it (`results[0]`); a longer array pops the front (`results.shift()`). -/
def step {T : Type} :
    ResultsGenerator T → Option (QueuedResult T) × ResultsGenerator T
  | [] => (none, [])
  | [r] => (some r, [r])
  | r :: rest => (some r, rest)

/-- `next()` as observed by the caller: `Except.ok none` is the JS
`undefined` result (empty queue, or a queued `undefined` value);
`Except.error e` models the `throw` of a queued `Throwable`. -/
def next {T : Type} (g : ResultsGenerator T) :
    Except Err (Option T) × ResultsGenerator T :=
  match step g with
  | (none, g') => (Except.ok none, g')
  | (some (QueuedResult.val v), g') => (Except.ok v, g')
  | (some (QueuedResult.throwable e), g') => (Except.error e, g')

/-- The caller-visible outcome of consuming one queued element. -/
def observe {T : Type} : QueuedResult T → Except Err (Option T)
  | QueuedResult.val v => Except.ok v
  | QueuedResult.throwable e => Except.error e

end ResultsGenerator

/-- A `Matcher<T>` is its `matches` method; the candidate is optional
(`matches(value?: T)`). -/
abbrev Matcher (α : Type) := Option α → Bool

namespace Matchers

/-- `eq(expected)` (`matchers.ts`, lines 68–74): deep equality with the
expected value; callers may pass an undefined expected value
(`eq(options?.consistency)`), hence `Option α`. -/
def eq {α : Type} [DecidableEq α] (expected : Option α) : Matcher α :=
  fun v => decide (v = expected)

/-- `anyString()` (`matchers.ts`, lines 36–42): defined and a string. -/
def anyString : Matcher KeyPart :=
  fun v => match v with
    | some (KeyPart.str _) => true
    | _ => false

/-- `anyKey()` (`matchers.ts`, lines 4–10): any defined key. -/
def anyKey : Matcher Key :=
  fun v => v.isSome

/-- `anyValue()` (`matchers.ts`, lines 12–18): any defined value. -/
def anyValue : Matcher KvValue :=
  fun v => v.isSome

end Matchers

/-- One element of the array passed to `keyPartMatcher`: a literal key
part or a key-part matcher. -/
abbrev KeyPartSpec := KeyPart ⊕ Matcher KeyPart

/-- `keyPartMatcher(matchers)` (`util.ts`, lines 4–25): an undefined
candidate never matches; a defined key matches iff its length equals the
spec list's length and every position matches (literal entries compare by
deep equality, matcher entries by their `matches`). -/
def keyPartMatcher (ms : List KeyPartSpec) : Matcher Key :=
  fun v => match v with
    | none => false
    | some key =>
      decide (key.length = ms.length) &&
        (List.zip ms key).all (fun p =>
          match p.1 with
          | Sum.inl lit => decide (lit = p.2)
          | Sum.inr m => m (some p.2))

/-- `MultiKeyMatcher` (`util.ts`, lines 27–45): arity must match, then
each key matcher must accept the corresponding input key. -/
def MultiKeyMatcher (kms : List (Matcher Key)) : Matcher (List Key) :=
  fun v => match v with
    | none => false
    | some keys =>
      decide (keys.length = kms.length) &&
        (List.zip kms keys).all (fun p => p.1 (some p.2))

/-- The `key` argument of a stub/verify call: a key matcher, or an array
whose entries are literal parts or part matchers. (A literal `Deno.KvKey`
is itself an array, so in `getKeyMatcher` (`util.ts`, lines 82–88) it
takes the `keyPartMatcher` branch with all-literal entries; the trailing
`eq(key)` branch is unreachable for array-shaped keys.) -/
inductive KvKeyMatcherArg where
  | matcher (m : Matcher Key)
  | parts (ps : List KeyPartSpec)

/-- `getKeyMatcher(key)` (`util.ts`, lines 82–88). -/
def getKeyMatcher : KvKeyMatcherArg → Matcher Key
  | KvKeyMatcherArg.matcher m => m
  | KvKeyMatcherArg.parts ps => keyPartMatcher ps

/-- The `consistency` field of a stub/verify `options` argument: a
literal level or a matcher. -/
inductive ConsistencySpec where
  | lit (c : ConsistencyLevel)
  | matcher (m : Matcher ConsistencyLevel)

/-- The optional `options` argument of a stub/verify `get` call. -/
structure GetOptionsSpec where
  consistency : Option ConsistencySpec

/-- The consistency matcher built by `Expectations.get` / `Assertions.get`:
`(options?.consistency && options?.consistency instanceof Matcher) ?
options.consistency : eq(options?.consistency)`. -/
def consistencyMatcherOf (options : Option GetOptionsSpec) :
    Matcher ConsistencyLevel :=
  match options.bind GetOptionsSpec.consistency with
  | some (ConsistencySpec.matcher m) => m
  | some (ConsistencySpec.lit c) => Matchers.eq (some c)
  | none => Matchers.eq (none : Option ConsistencyLevel)

/-- The `value` argument of a stub/verify `set` call: literal or matcher;
`value instanceof Matcher ? value : eq(value)`. -/
inductive ValueSpec where
  | lit (v : KvValue)
  | matcher (m : Matcher KvValue)

def valueMatcherOf : ValueSpec → Matcher KvValue
  | ValueSpec.lit v => Matchers.eq (some v)
  | ValueSpec.matcher m => m

/-! ## Interaction recorder -/

/-- One recorded argument of a call into the double. The source stores
`unknown[]`; calls recorded by `MockedKv` only ever store a key, a key
list, an options object, or a value, so a sum of those shapes is the
recorded-argument universe. -/
inductive Arg where
  | key (k : Key)
  | keys (ks : List Key)
  | options (consistency : Option ConsistencyLevel)
  | value (v : KvValue)
deriving DecidableEq, Repr

/-- `Interaction` (`assertKv.ts`, lines 18–21): recorded args plus the
`verified` flag, initially `false`. -/
structure Interaction where
  args : List Arg
  verified : Bool
deriving DecidableEq, Repr

/-- The `calls` map `Map<KvFunctionNames, Interaction[]>`, as an
insertion-ordered association list (JS `Map` iterates in key insertion
order). -/
abbrev Log := List (String × List Interaction)

/-- `getArray(map, key)` (`util.ts`, lines 47–54) as a read: the entry's
array, or an empty array. (The source also inserts the empty array into
the map when absent; an empty entry is observationally inert — it holds
no interactions — so the read is modelled as pure.) -/
def getArray (log : Log) (op : String) : List Interaction :=
  match log with
  | [] => []
  | p :: rest => if p.1 = op then p.2 else getArray rest op

/-- `MockedKv.addInteraction` (`src/unnamed/part_003`, lines 188–190):
push the interaction onto that operation's array, creating the entry at
the end of the map when absent. -/
def addInteraction (log : Log) (op : String) (i : Interaction) : Log :=
  match log with
  | [] => [(op, [i])]
  | p :: rest =>
    if p.1 = op then (p.1, p.2 ++ [i]) :: rest
    else p :: addInteraction rest op i

/-! ## Expectation registry -/

/-- A `get` expectation: `new Expectation([keyMatcher, consistencyMatcher],
thenable)` (`src/unnamed/part_007`, lines 109–113). -/
structure GetExpectation where
  keyMatcher : Matcher Key
  consistencyMatcher : Matcher ConsistencyLevel
  thenable : ResultsGenerator KvEntryMaybe

/-- A `set` expectation: `new Expectation([keyMatcher, valueMatcher],
thenable)` (`src/unnamed/part_007`, lines 168–170). -/
structure SetExpectation where
  keyMatcher : Matcher Key
  valueMatcher : Matcher KvValue
  thenable : ResultsGenerator KvCommitResult

/-- `Expectations.get` (`src/unnamed/part_007`, lines 94–116): register a
new expectation at the end of the `get` list. The source registers an
empty generator and returns it for the test to program; since programming
precedes consumption, the registered generator is modelled as the value
`thenable` obtained by applying the same `thenReturn`/`thenThrow` calls
to the fresh empty generator. -/
def Expectations.get (exps : List GetExpectation) (key : KvKeyMatcherArg)
    (options : Option GetOptionsSpec)
    (thenable : ResultsGenerator KvEntryMaybe) : List GetExpectation :=
  exps ++ [{ keyMatcher := getKeyMatcher key,
             consistencyMatcher := consistencyMatcherOf options,
             thenable := thenable }]

/-- `Expectations.set` (`src/unnamed/part_007`, lines 155–173). -/
def Expectations.set (exps : List SetExpectation) (key : KvKeyMatcherArg)
    (value : ValueSpec)
    (thenable : ResultsGenerator KvCommitResult) : List SetExpectation :=
  exps ++ [{ keyMatcher := getKeyMatcher key,
             valueMatcher := valueMatcherOf value,
             thenable := thenable }]

/-- `expectations.find(...)` followed by `matchingExpectation.thenable.next()`
on the found entry, generically over the expectation type: scan in list
order; on the first accepted entry run `consume`, write the updated entry
back in place and stop; entries before the match (all rejected) and after
it are returned unchanged. `none` means no expectation matched. -/
def resolveFirst {E T : Type} (accepts : E → Bool)
    (consume : E → Except Err (Option T) × E) :
    List E → Option (Except Err (Option T)) × List E
  | [] => (none, [])
  | e :: rest =>
    if accepts e then
      let c := consume e
      (some c.1, c.2 :: rest)
    else
      let r := resolveFirst accepts consume rest
      (r.1, e :: r.2)

/-- The call-acceptance test of a `get` expectation
(`src/unnamed/part_003`, lines 52–56): `keyMatcher.matches(key) &&
consistencyMatcher.matches(options?.consistency)`. -/
def GetExpectation.accepts (e : GetExpectation) (key : Key)
    (consistency : Option ConsistencyLevel) : Bool :=
  e.keyMatcher (some key) && e.consistencyMatcher consistency

/-- The call-acceptance test of a `set` expectation
(`src/unnamed/part_003`, lines 105–108). -/
def SetExpectation.accepts (e : SetExpectation) (key : Key)
    (value : KvValue) : Bool :=
  e.keyMatcher (some key) && e.valueMatcher (some value)

/-- Consume a `get` expectation's sequencer (`thenable.next()`). -/
def GetExpectation.consume (e : GetExpectation) :
    Except Err (Option KvEntryMaybe) × GetExpectation :=
  let n := ResultsGenerator.next e.thenable
  (n.1, { e with thenable := n.2 })

/-- Consume a `set` expectation's sequencer. -/
def SetExpectation.consume (e : SetExpectation) :
    Except Err (Option KvCommitResult) × SetExpectation :=
  let n := ResultsGenerator.next e.thenable
  (n.1, { e with thenable := n.2 })

/-! ## The mocked store -/

/-- The optional `options` argument of a real `kv.get` call. -/
structure GetOptions where
  consistency : Option ConsistencyLevel
deriving DecidableEq, Repr

/-- The mutable state of one `MockedKv` instance that the modelled
operations touch: the `get` and `set` expectation lists of its
`Expectations` and the shared `calls` map. -/
structure KvState where
  getExpectations : List GetExpectation
  setExpectations : List SetExpectation
  calls : Log

/-- `MockedKv.get` (`src/unnamed/part_003`, lines 42–65): record the
interaction (`[key]` or `[key, options]`), then find the first matching
`get` expectation; if one matches, return its sequencer's `next()`
(which may be `undefined` = `Except.ok none`, or throw); otherwise return
the default entry `{key, value: null, versionstamp: null}`. -/
def MockedKv.get (st : KvState) (key : Key) (options : Option GetOptions) :
    KvState × Except Err (Option KvEntryMaybe) :=
  let interaction : Interaction :=
    { args := match options with
        | some o => [Arg.key key, Arg.options o.consistency]
        | none => [Arg.key key],
      verified := false }
  let calls := addInteraction st.calls "get" interaction
  let r := resolveFirst
    (fun e => GetExpectation.accepts e key
      (options.bind GetOptions.consistency))
    GetExpectation.consume st.getExpectations
  match r.1 with
  | some outcome =>
    ({ st with calls := calls, getExpectations := r.2 }, outcome)
  | none =>
    ({ st with calls := calls, getExpectations := r.2 },
      Except.ok (some { key := key, value := KvValue.null,
                        versionstamp := none }))

/-- `MockedKv.set` (`src/unnamed/part_003`, lines 100–118): record
`[key, value]`, then first-match resolution; default outcome is
`{ok: true, versionstamp: "00000000000000010000"}`. -/
def MockedKv.set (st : KvState) (key : Key) (value : KvValue) :
    KvState × Except Err (Option KvCommitResult) :=
  let interaction : Interaction :=
    { args := [Arg.key key, Arg.value value], verified := false }
  let calls := addInteraction st.calls "set" interaction
  let r := resolveFirst
    (fun e => SetExpectation.accepts e key value)
    SetExpectation.consume st.setExpectations
  match r.1 with
  | some outcome =>
    ({ st with calls := calls, setExpectations := r.2 }, outcome)
  | none =>
    ({ st with calls := calls, setExpectations := r.2 },
      Except.ok (some { ok := true,
                        versionstamp := "00000000000000010000" }))

/-! ## Verification engine -/

/-- Which of the five `verifyX` closures the mutable `verification` field
of `Assertions` currently holds. -/
inductive VerificationKind where
  | once
  | times
  | never
  | atLeast
  | atMost
deriving DecidableEq, Repr

/-- The mutable quantifier state of `Assertions`: the `verifyNumber`
field (initially `1`) and the `verification` field (initially
`verifyAtLeast`). -/
structure AssertState where
  verifyNumber : Nat
  verification : VerificationKind
deriving DecidableEq, Repr

/-- The initial quantifier state, which is also the state produced by
`resetVerification` (`assertKv.ts`, lines 190–193). -/
def AssertState.initial : AssertState :=
  { verifyNumber := 1, verification := VerificationKind.atLeast }

/-- `this.verification(matchingInteractions)` (`assertKv.ts`, lines
195–268): dispatch on the stored closure, which reads only the count `k`
of matching interactions (`interactions.length`) and `verifyNumber`.
Each closure either returns `true` or throws an `AssertionError`, and
its `finally` block runs `resetVerification()` on both paths, so the
returned state is always `AssertState.initial`. -/
def Assertions.verification (st : AssertState) (k : Nat) :
    AssertState × Except Err Bool :=
  let n := st.verifyNumber
  let result : Except Err Bool :=
    match st.verification with
    | VerificationKind.once =>
      if k ≠ 1 then
        Except.error ("Expected to be called once but was called " ++
          toString k ++ " times")
      else Except.ok true
    | VerificationKind.times =>
      if k ≠ n then
        Except.error ("Expected to be called " ++ toString n ++
          " times but was called " ++ toString k ++ " times")
      else Except.ok true
    | VerificationKind.never =>
      if k ≠ 0 then
        Except.error ("Expected to never be called but was called " ++
          toString k ++ " times")
      else Except.ok true
    | VerificationKind.atLeast =>
      if k < n then
        Except.error ("Expected to be called at least " ++ toString n ++
          " times but was only called " ++ toString k ++ " times")
      else Except.ok true
    | VerificationKind.atMost =>
      if k > n then
        Except.error ("Expected to be called at most " ++ toString n ++
          " times but was called " ++ toString k ++ " times")
      else Except.ok true
  (AssertState.initial, result)

/-- `once()` (`assertKv.ts`, lines 270–273): sets only the
`verification` field. -/
def Assertions.once (st : AssertState) : AssertState :=
  { st with verification := VerificationKind.once }

/-- `times(n)` (`assertKv.ts`, lines 275–279). -/
def Assertions.times (st : AssertState) (n : Nat) : AssertState :=
  { st with verifyNumber := n, verification := VerificationKind.times }

/-- `never()` (`assertKv.ts`, lines 281–284). -/
def Assertions.never (st : AssertState) : AssertState :=
  { st with verification := VerificationKind.never }

/-- `atLeast(n)` (`assertKv.ts`, lines 286–290). -/
def Assertions.atLeast (st : AssertState) (n : Nat) : AssertState :=
  { st with verifyNumber := n, verification := VerificationKind.atLeast }

/-- `atMost(n)` (`assertKv.ts`, lines 292–296). -/
def Assertions.atMost (st : AssertState) (n : Nat) : AssertState :=
  { st with verifyNumber := n, verification := VerificationKind.atMost }

/-- `interaction.args[0]` viewed as a `Deno.KvKey` (the unchecked cast in
`Assertions.get`); a non-key argument never arises in a `get` log. -/
def Arg.asKey : Arg → Option Key
  | Arg.key k => some k
  | _ => none

/-- `interaction.args[0]` viewed as a `Deno.KvKey[]` (the cast in
`Assertions.getMany`). -/
def Arg.asKeys : Arg → Option (List Key)
  | Arg.keys ks => some ks
  | _ => none

/-- `interaction.args[1]` viewed as a `set` value. -/
def Arg.asValue : Arg → Option KvValue
  | Arg.value v => some v
  | _ => none

/-- `(interaction.args[1] as {consistency?}).consistency`: the
`consistency` field of the recorded options object (`undefined` on any
other shape, as JS property access would yield). -/
def Arg.consistencyField : Arg → Option ConsistencyLevel
  | Arg.options c => c
  | _ => none

/-- The filter predicate of `Assertions.get` (`assertKv.ts`, lines
51–58): the key matcher must accept `args[0]`, and either the call was
recorded without an options argument (`args[1] === undefined`) or the
consistency matcher must accept its `consistency` field. -/
def getCallPred (keyM : Matcher Key) (consM : Matcher ConsistencyLevel)
    (i : Interaction) : Bool :=
  keyM ((i.args.get? 0).bind Arg.asKey) &&
    ((i.args.get? 1).isNone ||
      consM ((i.args.get? 1).bind Arg.consistencyField))

/-- The filter predicate of `Assertions.getMany` (`assertKv.ts`, lines
94–101). -/
def getManyCallPred (multiKeyM : Matcher (List Key))
    (consM : Matcher ConsistencyLevel) (i : Interaction) : Bool :=
  multiKeyM ((i.args.get? 0).bind Arg.asKeys) &&
    ((i.args.get? 1).isNone ||
      consM ((i.args.get? 1).bind Arg.consistencyField))

/-- The filter predicate of `Assertions.set` (`assertKv.ts`, lines
123–126): no undefined-escape for `args[1]` here — the value matcher is
applied to it directly. -/
def setCallPred (keyM : Matcher Key) (valueM : Matcher KvValue)
    (i : Interaction) : Bool :=
  keyM ((i.args.get? 0).bind Arg.asKey) &&
    valueM ((i.args.get? 1).bind Arg.asValue)

/-- `matchingInteractions.forEach(i => i.verified = true)`: set the
`verified` flag of every interaction satisfying the predicate. -/
def markMatching (pred : Interaction → Bool) (is : List Interaction) :
    List Interaction :=
  is.map (fun i => if pred i then { i with verified := true } else i)

/-- The marking step as seen through the shared `calls` map: only the
given operation's array is touched, and in it only the interactions the
predicate accepts. -/
def markOp (log : Log) (op : String) (pred : Interaction → Bool) : Log :=
  match log with
  | [] => []
  | p :: rest =>
    (if p.1 = op then (p.1, markMatching pred p.2) else p) ::
      markOp rest op pred

/-- `Assertions.get` (`assertKv.ts`, lines 32–64): build the matchers,
filter the `get` interactions, mark every match verified, then evaluate
the stored quantifier on the match count (which also resets it). -/
def Assertions.get (ast : AssertState) (log : Log) (key : KvKeyMatcherArg)
    (options : Option GetOptionsSpec) :
    AssertState × Log × Except Err Bool :=
  let keyM := getKeyMatcher key
  let consM := consistencyMatcherOf options
  let interactions := getArray log "get"
  let matching := interactions.filter (getCallPred keyM consM)
  let log' := markOp log "get" (getCallPred keyM consM)
  let v := Assertions.verification ast matching.length
  (v.1, log', v.2)

/-- `Assertions.getMany` (`assertKv.ts`, lines 66–107). -/
def Assertions.getMany (ast : AssertState) (log : Log)
    (keys : List KvKeyMatcherArg) (options : Option GetOptionsSpec) :
    AssertState × Log × Except Err Bool :=
  let multiKeyM := MultiKeyMatcher (keys.map getKeyMatcher)
  let consM := consistencyMatcherOf options
  let interactions := getArray log "getMany"
  let matching := interactions.filter (getManyCallPred multiKeyM consM)
  let log' := markOp log "getMany" (getManyCallPred multiKeyM consM)
  let v := Assertions.verification ast matching.length
  (v.1, log', v.2)

/-- `Assertions.set` (`assertKv.ts`, lines 109–132). -/
def Assertions.set (ast : AssertState) (log : Log) (key : KvKeyMatcherArg)
    (value : ValueSpec) : AssertState × Log × Except Err Bool :=
  let keyM := getKeyMatcher key
  let valueM := valueMatcherOf value
  let interactions := getArray log "set"
  let matching := interactions.filter (setCallPred keyM valueM)
  let log' := markOp log "set" (setCallPred keyM valueM)
  let v := Assertions.verification ast matching.length
  (v.1, log', v.2)

/-! ## Exhaustiveness check -/

/-- `JSON.stringify` of a key part (string escaping inside the string is
not modelled; the scenario values contain no special characters). -/
def jsonKeyPart : KeyPart → String
  | KeyPart.str s => "\"" ++ s ++ "\""
  | KeyPart.int n => toString n
  | KeyPart.bool b => if b then "true" else "false"

/-- `JSON.stringify` of a stored value. -/
def jsonKvValue : KvValue → String
  | KvValue.null => "null"
  | KvValue.str s => "\"" ++ s ++ "\""
  | KvValue.int n => toString n
  | KvValue.bool b => if b then "true" else "false"

def jsonList {α : Type} (f : α → String) (l : List α) : String :=
  "[" ++ String.intercalate "," (l.map f) ++ "]"

/-- `JSON.stringify` of one recorded argument. An options object with an
undefined `consistency` field serialises to an empty object. -/
def jsonArg : Arg → String
  | Arg.key k => jsonList jsonKeyPart k
  | Arg.keys ks => jsonList (jsonList jsonKeyPart) ks
  | Arg.options none => "\x7b\x7d"
  | Arg.options (some c) =>
    "\x7b\"consistency\":\"" ++
      (match c with
        | ConsistencyLevel.strong => "strong"
        | ConsistencyLevel.eventual => "eventual") ++ "\"\x7d"
  | Arg.value v => jsonKvValue v

/-- `"kv." + key + "(" + args + ")"` where `args` is
`JSON.stringify(interaction.args)` with the outer brackets stripped
(`assertKv.ts`, lines 305–308). -/
def formatInteraction (op : String) (args : List Arg) : String :=
  "kv." ++ op ++ "(" ++ String.intercalate "," (args.map jsonArg) ++ ")"

/-- Every unverified interaction, paired with its operation name, in map
iteration order then array order — exactly the order the `forEach` loops
of `noMoreInteractions` (`assertKv.ts`, lines 301–312) visit them. -/
def unverifiedCalls (log : Log) : List (String × List Arg) :=
  log.flatMap (fun p =>
    (p.2.filter (fun i => !i.verified)).map (fun i => (p.1, i.args)))

/-- The `unverifiedInteractions` string array: the `visited++ < 10` guard
pushes a formatted line for exactly the first ten unverified
interactions, and when more than ten exist a final `"... (N more)"` line
is appended (`assertKv.ts`, lines 298–316). -/
def unverifiedMessages (log : Log) : List String :=
  let unv := unverifiedCalls log
  let shown := (unv.take 10).map (fun c => formatInteraction c.1 c.2)
  if unv.length > 10 then
    shown ++ ["... (" ++ toString (unv.length - 10) ++ " more)"]
  else shown

/-- `Assertions.noMoreInteractions` (`assertKv.ts`, lines 298–326):
throws when any unverified interaction exists, else returns `true`. -/
def Assertions.noMoreInteractions (log : Log) : Except Err Bool :=
  let msgs := unverifiedMessages log
  if msgs.length ≠ 0 then
    Except.error ("There are unverified interactions: \n\n   " ++
      String.intercalate "\n   " msgs ++ "\n\n")
  else Except.ok true

/-! ## Concrete scenario states -/

/-- Iterated consumption: the generator state after `n` calls to
`next()`. -/
def ResultsGenerator.iterateNext {T : Type} :
    Nat → ResultsGenerator T → ResultsGenerator T
  | 0, g => g
  | Nat.succ n, g => ResultsGenerator.iterateNext n (ResultsGenerator.next g).2

/-- A fresh mock with no stubs and no recorded calls. -/
def emptyKvState : KvState :=
  { getExpectations := [], setExpectations := [], calls := [] }

def keyAB : Key := [KeyPart.str "a", KeyPart.str "b"]

/-- The broad stub argument of the first-match-wins scenario: any
two-part key of strings. -/
def anyKeyOfLength2 : KvKeyMatcherArg :=
  KvKeyMatcherArg.parts [Sum.inr Matchers.anyString, Sum.inr Matchers.anyString]

/-- The narrow stub argument: the literal key `["a", "b"]`. -/
def exactKeyAB : KvKeyMatcherArg :=
  KvKeyMatcherArg.parts [Sum.inl (KeyPart.str "a"), Sum.inl (KeyPart.str "b")]

def entryV1 : KvEntryMaybe :=
  { key := keyAB, value := KvValue.str "V1",
    versionstamp := some "00000000000000010000" }

def entryV2 : KvEntryMaybe :=
  { key := keyAB, value := KvValue.str "V2",
    versionstamp := some "00000000000000020000" }

/-- The expectation registered by the broad stub. -/
def broadExpectation : GetExpectation :=
  { keyMatcher := getKeyMatcher anyKeyOfLength2,
    consistencyMatcher := consistencyMatcherOf none,
    thenable := ResultsGenerator.thenReturn [] [entryV1] }

/-- The expectation registered by the later, narrower stub. -/
def narrowExpectation : GetExpectation :=
  { keyMatcher := getKeyMatcher exactKeyAB,
    consistencyMatcher := consistencyMatcherOf none,
    thenable := ResultsGenerator.thenReturn [] [entryV2] }

/-- Mock state after registering the broad stub (returning `entryV1`)
and then the narrow stub (returning `entryV2`), in that order. -/
def broadNarrowState : KvState :=
  { getExpectations :=
      Expectations.get
        (Expectations.get [] anyKeyOfLength2 none
          (ResultsGenerator.thenReturn [] [entryV1]))
        exactKeyAB none
        (ResultsGenerator.thenReturn [] [entryV2]),
    setExpectations := [], calls := [] }

def keyX : Key := [KeyPart.str "x"]

/-- Mock state after `whenKv.get(["x"]).thenReturn()` — a stub programmed
with a zero-argument `thenReturn`. -/
def voidStubState : KvState :=
  { getExpectations :=
      Expectations.get [] (KvKeyMatcherArg.parts [Sum.inl (KeyPart.str "x")])
        none (ResultsGenerator.thenReturn [] []),
    setExpectations := [], calls := [] }

/-! ## Helper lemmas -/

theorem resolveFirst_of_none {E T : Type} (accepts : E → Bool)
    (consume : E → Except Err (Option T) × E) (es : List E)
    (h : ∀ e ∈ es, accepts e = false) :
    resolveFirst accepts consume es = (none, es) := by
  induction es with
  | nil => rfl
  | cons e rest ih =>
    simp only [resolveFirst, h e (List.mem_cons_self e rest)]
    simp only [Bool.false_eq_true, if_false]
    rw [ih (fun x hx => h x (List.mem_cons_of_mem e hx))]

theorem resolveFirst_of_first {E T : Type} (accepts : E → Bool)
    (consume : E → Except Err (Option T) × E)
    (pre : List E) (e : E) (post : List E)
    (hpre : ∀ x ∈ pre, accepts x = false) (he : accepts e = true) :
    resolveFirst accepts consume (pre ++ e :: post) =
      (some (consume e).1, pre ++ (consume e).2 :: post) := by
  induction pre with
  | nil => simp [resolveFirst, he]
  | cons x xs ih =>
    have ih' := ih (fun y hy => hpre y (List.mem_cons_of_mem x hy))
    simp only [List.cons_append, resolveFirst,
      hpre x (List.mem_cons_self x xs)]
    simp only [Bool.false_eq_true, if_false, List.append_eq]
    rw [ih']

theorem getArray_addInteraction (log : Log) (op : String) (i : Interaction) :
    getArray (addInteraction log op i) op = getArray log op ++ [i] := by
  induction log with
  | nil => simp [addInteraction, getArray]
  | cons p rest ih =>
    by_cases h : p.1 = op
    · simp [addInteraction, getArray, h]
    · simp [addInteraction, getArray, h, ih]

theorem getArray_markOp (log : Log) (op : String)
    (pred : Interaction → Bool) :
    getArray (markOp log op pred) op = markMatching pred (getArray log op) := by
  induction log with
  | nil => rfl
  | cons p rest ih =>
    by_cases h : p.1 = op
    · simp [markOp, getArray, h]
    · simp [markOp, getArray, h, ih]

theorem markMatching_eq_map (pred : Interaction → Bool)
    (is : List Interaction) :
    markMatching pred is =
      is.map (fun j => { args := j.args, verified := j.verified || pred j }) := by
  induction is with
  | nil => rfl
  | cons i rest ih =>
    simp only [markMatching, List.map_cons, List.cons.injEq] at ih ⊢
    refine ⟨?_, ih⟩
    by_cases h : pred i = true
    · simp [h]
    · simp [h]

theorem markMatching_idem (pred : Interaction → Bool)
    (hp : ∀ a b b', pred { args := a, verified := b } =
      pred { args := a, verified := b' }) (is : List Interaction) :
    markMatching pred (markMatching pred is) = markMatching pred is := by
  rw [markMatching_eq_map pred is, markMatching_eq_map, List.map_map]
  refine List.map_congr_left (fun j _ => ?_)
  have hj : pred { args := j.args, verified := j.verified || pred j } = pred j := by
    rw [hp j.args (j.verified || pred j) j.verified]
  simp [Function.comp, hj, Bool.or_assoc]

theorem markOp_idem (log : Log) (op : String) (pred : Interaction → Bool)
    (hp : ∀ a b b', pred { args := a, verified := b } =
      pred { args := a, verified := b' }) :
    markOp (markOp log op pred) op pred = markOp log op pred := by
  induction log with
  | nil => rfl
  | cons p rest ih =>
    by_cases h : p.1 = op
    · simp [markOp, h, markMatching_idem pred hp, ih]
    · simp [markOp, h, ih]

theorem get_state_components (st : KvState) (key : Key)
    (options : Option GetOptions) :
    (MockedKv.get st key options).1.getExpectations =
      (resolveFirst
        (fun e => GetExpectation.accepts e key
          (options.bind GetOptions.consistency))
        GetExpectation.consume st.getExpectations).2 ∧
    (MockedKv.get st key options).1.setExpectations = st.setExpectations ∧
    (MockedKv.get st key options).1.calls =
      addInteraction st.calls "get"
        { args := match options with
            | some o => [Arg.key key, Arg.options o.consistency]
            | none => [Arg.key key],
          verified := false } := by
  rcases hr : resolveFirst
    (fun e => GetExpectation.accepts e key
      (options.bind GetOptions.consistency))
    GetExpectation.consume st.getExpectations with ⟨o, exps⟩
  cases o <;> simp [MockedKv.get, hr]

theorem set_state_components (st : KvState) (key : Key) (value : KvValue) :
    (MockedKv.set st key value).1.setExpectations =
      (resolveFirst (fun e => SetExpectation.accepts e key value)
        SetExpectation.consume st.setExpectations).2 ∧
    (MockedKv.set st key value).1.getExpectations = st.getExpectations ∧
    (MockedKv.set st key value).1.calls =
      addInteraction st.calls "set"
        { args := [Arg.key key, Arg.value value], verified := false } := by
  rcases hr : resolveFirst (fun e => SetExpectation.accepts e key value)
    SetExpectation.consume st.setExpectations with ⟨o, exps⟩
  cases o <;> simp [MockedKv.set, hr]

theorem get_result_of_unmatched (st : KvState) (key : Key)
    (options : Option GetOptions)
    (h : ∀ e ∈ st.getExpectations, GetExpectation.accepts e key
      (options.bind GetOptions.consistency) = false) :
    (MockedKv.get st key options).2 =
      Except.ok (some { key := key, value := KvValue.null,
                        versionstamp := none }) := by
  have hr := resolveFirst_of_none
    (fun e => GetExpectation.accepts e key
      (options.bind GetOptions.consistency))
    GetExpectation.consume st.getExpectations h
  simp [MockedKv.get, hr]

theorem getCallPred_args_only (keyM : Matcher Key)
    (consM : Matcher ConsistencyLevel) (i j : Interaction)
    (h : i.args = j.args) :
    getCallPred keyM consM i = getCallPred keyM consM j := by
  unfold getCallPred
  rw [h]

theorem unverifiedCalls_eq_nil (log : Log) :
    unverifiedCalls log = [] ↔ ∀ p ∈ log, ∀ i ∈ p.2, i.verified = true := by
  simp [unverifiedCalls, List.flatMap_eq_nil_iff, List.map_eq_nil_iff,
    List.filter_eq_nil_iff]

theorem unverifiedMessages_eq_nil (log : Log) :
    unverifiedMessages log = [] ↔ unverifiedCalls log = [] := by
  unfold unverifiedMessages
  by_cases h : (unverifiedCalls log).length > 10
  · simp only [h, if_true]
    simp only [List.append_eq_nil, List.cons_ne_nil, and_false, false_iff]
    intro hc
    rw [hc] at h
    simp at h
  · simp only [h, if_false]
    rw [List.map_eq_nil_iff, List.take_eq_nil_iff]
    simp

/-! ## Claims -/

/-- C1: `next()` obeys the sticky-tail rule: an empty queue yields
`undefined`; with at least two queued outcomes the front is removed and
returned (raising if it is a queued failure); with exactly one remaining
outcome it is returned (or raised) without being removed, so every
subsequent `next()` yields that same outcome again. -/
theorem next_sticky_tail {T : Type} (g : ResultsGenerator T) :
    (g = [] → ResultsGenerator.next g = (Except.ok none, [])) ∧
    (∀ r, g = [r] →
      ResultsGenerator.next g = (ResultsGenerator.observe r, [r]) ∧
      (∀ n, ResultsGenerator.iterateNext n g = g) ∧
      (∀ n, (ResultsGenerator.next (ResultsGenerator.iterateNext n g)).1 =
        ResultsGenerator.observe r)) ∧
    (∀ r rest, g = r :: rest → rest ≠ [] →
      ResultsGenerator.next g = (ResultsGenerator.observe r, rest)) := by
  refine ⟨?_, ?_, ?_⟩
  · rintro rfl; rfl
  · rintro r rfl
    have hnext : ResultsGenerator.next [r] = (ResultsGenerator.observe r, [r]) := by
      cases r <;> rfl
    have hiter : ∀ n, ResultsGenerator.iterateNext n [r] = [r] := by
      intro n
      induction n with
      | zero => rfl
      | succ n ih =>
        show ResultsGenerator.iterateNext n (ResultsGenerator.next [r]).2 = [r]
        rw [hnext]
        exact ih
    refine ⟨hnext, hiter, fun n => ?_⟩
    rw [hiter n, hnext]
  · rintro r rest rfl hrest
    cases rest with
    | nil => exact absurd rfl hrest
    | cons r' rest' => cases r <;> rfl

/-- C1 witness: a one-element queue replays its outcome on every call. -/
theorem next_sticky_tail_witness :
    (ResultsGenerator.next (ResultsGenerator.iterateNext 5
      [QueuedResult.val (some (7 : Nat))])).1 = Except.ok (some 7) :=
  ((next_sticky_tail [QueuedResult.val (some (7 : Nat))]).2.1
    (QueuedResult.val (some 7)) rfl).2.2 5

/-- C2: resolution scans the operation's expectation list in registration
order and consumes the sequencer of the first expectation whose matchers
all accept the call's arguments; expectations registered after the match
(including a later, narrower stub that also matches the input) are never
consulted. Stated for `get` and for `set`. -/
theorem first_match_wins :
    (∀ (st : KvState) (key : Key) (options : Option GetOptions)
      (pre : List GetExpectation) (e : GetExpectation)
      (post : List GetExpectation),
      st.getExpectations = pre ++ e :: post →
      (∀ x ∈ pre, GetExpectation.accepts x key
        (options.bind GetOptions.consistency) = false) →
      GetExpectation.accepts e key (options.bind GetOptions.consistency) =
        true →
      (MockedKv.get st key options).2 = (GetExpectation.consume e).1 ∧
      (MockedKv.get st key options).1.getExpectations =
        pre ++ (GetExpectation.consume e).2 :: post) ∧
    (∀ (st : KvState) (key : Key) (value : KvValue)
      (pre : List SetExpectation) (e : SetExpectation)
      (post : List SetExpectation),
      st.setExpectations = pre ++ e :: post →
      (∀ x ∈ pre, SetExpectation.accepts x key value = false) →
      SetExpectation.accepts e key value = true →
      (MockedKv.set st key value).2 = (SetExpectation.consume e).1 ∧
      (MockedKv.set st key value).1.setExpectations =
        pre ++ (SetExpectation.consume e).2 :: post) := by
  constructor
  · intro st key options pre e post hsplit hpre he
    have hres := resolveFirst_of_first
      (fun x => GetExpectation.accepts x key
        (options.bind GetOptions.consistency))
      GetExpectation.consume pre e post hpre he
    rw [← hsplit] at hres
    constructor
    · simp [MockedKv.get, hres]
    · simp [MockedKv.get, hres]
  · intro st key value pre e post hsplit hpre he
    have hres := resolveFirst_of_first
      (fun x => SetExpectation.accepts x key value)
      SetExpectation.consume pre e post hpre he
    rw [← hsplit] at hres
    constructor
    · simp [MockedKv.set, hres]
    · simp [MockedKv.set, hres]

/-- C2 witness: with a broad any-two-string-parts stub returning `entryV1`
registered before a narrow literal `["a","b"]` stub returning `entryV2`,
calling `get(["a","b"])` returns `entryV1`. -/
theorem first_match_wins_witness :
    (MockedKv.get broadNarrowState keyAB none).2 =
      Except.ok (some entryV1) := by
  have h := first_match_wins.1 broadNarrowState keyAB none []
    broadExpectation [narrowExpectation] rfl
    (by intro x hx; simp at hx) rfl
  exact h.1

/-- C10: resolving a call consumes at most one sequencer: when an
expectation matches, only the first matching expectation's generator
advances — every expectation before it, after it, and of every other
operation, matchers included, is unchanged — and when no expectation
matches, the expectation lists are returned unchanged. -/
theorem resolution_consumes_at_most_one (st : KvState) (key : Key)
    (options : Option GetOptions) (value : KvValue) :
    (MockedKv.get st key options).1.setExpectations = st.setExpectations ∧
    (MockedKv.set st key value).1.getExpectations = st.getExpectations ∧
    ((∀ e ∈ st.getExpectations, GetExpectation.accepts e key
        (options.bind GetOptions.consistency) = false) →
      (MockedKv.get st key options).1.getExpectations =
        st.getExpectations) ∧
    (∀ pre e post, st.getExpectations = pre ++ e :: post →
      (∀ x ∈ pre, GetExpectation.accepts x key
        (options.bind GetOptions.consistency) = false) →
      GetExpectation.accepts e key (options.bind GetOptions.consistency) =
        true →
      (MockedKv.get st key options).1.getExpectations =
        pre ++
          { e with thenable := (ResultsGenerator.next e.thenable).2 } ::
          post) := by
  refine ⟨(get_state_components st key options).2.1,
    (set_state_components st key value).2.1, ?_, ?_⟩
  · intro h
    have hr := resolveFirst_of_none
      (fun e => GetExpectation.accepts e key
        (options.bind GetOptions.consistency))
      GetExpectation.consume st.getExpectations h
    rw [(get_state_components st key options).1, hr]
  · intro pre e post hsplit hpre he
    have hres := resolveFirst_of_first
      (fun x => GetExpectation.accepts x key
        (options.bind GetOptions.consistency))
      GetExpectation.consume pre e post hpre he
    rw [← hsplit] at hres
    rw [(get_state_components st key options).1, hres]
    rfl

/-- C10 witness: resolving the scenario call touches neither the `set`
expectations nor the later narrow `get` expectation, and the matched
broad expectation keeps its matchers (its single-element sticky queue is
also unchanged). -/
theorem resolution_consumes_at_most_one_witness :
    (MockedKv.get broadNarrowState keyAB none).1.setExpectations = [] ∧
    (MockedKv.get broadNarrowState keyAB none).1.getExpectations =
      [{ broadExpectation with
           thenable := [QueuedResult.val (some entryV1)] },
        narrowExpectation] := by
  have h := resolution_consumes_at_most_one broadNarrowState keyAB none
    (KvValue.str "v")
  refine ⟨h.1, ?_⟩
  have h4 := h.2.2.2 [] broadExpectation [narrowExpectation] rfl
    (by intro x hx; simp at hx) rfl
  exact h4

/-- C3: a `get` call is always appended to the interaction log for
operation `"get"` — matched or not — and when no registered expectation
matches it returns the neutral default entry
`{key, value: null, versionstamp: null}`. -/
theorem get_default_and_always_logged (st : KvState) (key : Key)
    (options : Option GetOptions) :
    getArray (MockedKv.get st key options).1.calls "get" =
      getArray st.calls "get" ++
        [{ args := match options with
             | some o => [Arg.key key, Arg.options o.consistency]
             | none => [Arg.key key],
           verified := false }] ∧
    ((∀ e ∈ st.getExpectations, GetExpectation.accepts e key
        (options.bind GetOptions.consistency) = false) →
      (MockedKv.get st key options).2 =
        Except.ok (some { key := key, value := KvValue.null,
                          versionstamp := none })) := by
  constructor
  · rw [(get_state_components st key options).2.2, getArray_addInteraction]
  · exact get_result_of_unmatched st key options

/-- C3 witness: with no stubs registered, `get(["x"])` returns the default
entry and the call is recorded. -/
theorem get_default_and_always_logged_witness :
    (MockedKv.get emptyKvState keyX none).2 =
      Except.ok (some { key := keyX, value := KvValue.null,
                        versionstamp := none }) ∧
    getArray (MockedKv.get emptyKvState keyX none).1.calls "get" =
      [{ args := [Arg.key keyX], verified := false }] := by
  have h := get_default_and_always_logged emptyKvState keyX none
  refine ⟨h.2 (by intro e he; simp [emptyKvState] at he), ?_⟩
  rw [h.1]
  rfl

/-- C8: a zero-argument `thenReturn()` enqueues exactly one undefined
success outcome rather than being a no-op, so a call stubbed this way
succeeds with an undefined result instead of falling back to the
unstubbed default entry. -/
theorem thenReturn_zero_args_enqueues {T : Type} (g : ResultsGenerator T) :
    ResultsGenerator.thenReturn g [] = g ++ [QueuedResult.val none] ∧
    (ResultsGenerator.next
      (ResultsGenerator.thenReturn ([] : ResultsGenerator T) [])).1 =
      Except.ok none ∧
    (MockedKv.get voidStubState keyX none).2 = Except.ok none ∧
    (MockedKv.get emptyKvState keyX none).2 =
      Except.ok (some { key := keyX, value := KvValue.null,
                        versionstamp := none }) := by
  exact ⟨rfl, rfl, rfl, rfl⟩

/-- C4: each quantifier evaluation over a match count `k` succeeds
exactly under its counting condition — `once` iff `k = 1`, `times(n)` iff
`k = n`, `never` iff `k = 0`, `atLeast(n)` iff `k ≥ n`, `atMost(n)` iff
`k ≤ n` — and in every violating case it throws an error naming the
expected condition and the actual count. The `times` law is also stated
through `Assertions.get`, where `k` is the number of interactions
matching the operation and matchers. -/
theorem verification_count_law (n k : Nat) :
    ((Assertions.verification
      { verifyNumber := n, verification := VerificationKind.once } k).2 =
        Except.ok true ↔ k = 1) ∧
    ((Assertions.verification
      { verifyNumber := n, verification := VerificationKind.times } k).2 =
        Except.ok true ↔ k = n) ∧
    ((Assertions.verification
      { verifyNumber := n, verification := VerificationKind.never } k).2 =
        Except.ok true ↔ k = 0) ∧
    ((Assertions.verification
      { verifyNumber := n, verification := VerificationKind.atLeast } k).2 =
        Except.ok true ↔ n ≤ k) ∧
    ((Assertions.verification
      { verifyNumber := n, verification := VerificationKind.atMost } k).2 =
        Except.ok true ↔ k ≤ n) ∧
    (k ≠ 1 → (Assertions.verification
      { verifyNumber := n, verification := VerificationKind.once } k).2 =
        Except.error ("Expected to be called once but was called " ++
          toString k ++ " times")) ∧
    (k ≠ n → (Assertions.verification
      { verifyNumber := n, verification := VerificationKind.times } k).2 =
        Except.error ("Expected to be called " ++ toString n ++
          " times but was called " ++ toString k ++ " times")) ∧
    (k ≠ 0 → (Assertions.verification
      { verifyNumber := n, verification := VerificationKind.never } k).2 =
        Except.error ("Expected to never be called but was called " ++
          toString k ++ " times")) ∧
    (k < n → (Assertions.verification
      { verifyNumber := n, verification := VerificationKind.atLeast } k).2 =
        Except.error ("Expected to be called at least " ++ toString n ++
          " times but was only called " ++ toString k ++ " times")) ∧
    (n < k → (Assertions.verification
      { verifyNumber := n, verification := VerificationKind.atMost } k).2 =
        Except.error ("Expected to be called at most " ++ toString n ++
          " times but was called " ++ toString k ++ " times")) ∧
    (∀ (log : Log) (key : KvKeyMatcherArg) (options : Option GetOptionsSpec),
      (Assertions.get
        { verifyNumber := n, verification := VerificationKind.times }
        log key options).2.2 = Except.ok true ↔
        ((getArray log "get").filter
          (getCallPred (getKeyMatcher key)
            (consistencyMatcherOf options))).length = n) := by
  refine ⟨?_, ?_, ?_, ?_, ?_, ?_, ?_, ?_, ?_, ?_, ?_⟩
  · by_cases h : k = 1 <;> simp [Assertions.verification, h]
  · by_cases h : k = n <;> simp [Assertions.verification, h]
  · by_cases h : k = 0 <;> simp [Assertions.verification, h]
  · by_cases h : k < n
    all_goals simp [Assertions.verification, h]
    all_goals omega
  · by_cases h : n < k
    all_goals simp [Assertions.verification, h]
    all_goals omega
  · intro h; simp [Assertions.verification, h]
  · intro h; simp [Assertions.verification, h]
  · intro h; simp [Assertions.verification, h]
  · intro h; simp [Assertions.verification, Nat.not_le.mpr h, h]
  · intro h; simp [Assertions.verification, Nat.not_le.mpr h, h]
  · intro log key options
    show (Assertions.verification
      { verifyNumber := n, verification := VerificationKind.times }
      ((getArray log "get").filter
        (getCallPred (getKeyMatcher key)
          (consistencyMatcherOf options))).length).2 = Except.ok true ↔ _
    by_cases h : ((getArray log "get").filter
      (getCallPred (getKeyMatcher key)
        (consistencyMatcherOf options))).length = n <;>
      simp [Assertions.verification, h]

/-- C4 witness: two calls recorded, `once()` expected — the evaluation
throws and the message names the expected condition and the count 2. -/
theorem verification_count_law_witness :
    (2 : Nat) ≠ 1 ∧
    (Assertions.verification
      { verifyNumber := 5, verification := VerificationKind.once } 2).2 =
      Except.error "Expected to be called once but was called 2 times" :=
  ⟨by decide, (verification_count_law 5 2).2.2.2.2.2.1 (by decide)⟩

/-- C5: every verification evaluation — whether it returns `true` or
throws — leaves the quantifier state at the default `atLeast(1)`, so the
next operation-matcher call made without an explicit quantifier succeeds
exactly when at least one interaction matches, never inheriting the
previous chain's quantifier or count. -/
theorem quantifier_reset (st : AssertState) (k k' : Nat) :
    (Assertions.verification st k).1 = AssertState.initial ∧
    ((Assertions.verification (Assertions.verification st k).1 k').2 =
      Except.ok true ↔ 1 ≤ k') ∧
    (∀ (log : Log) (key : KvKeyMatcherArg)
      (options : Option GetOptionsSpec),
      (Assertions.get st log key options).1 = AssertState.initial) := by
  refine ⟨rfl, ?_, fun log key options => rfl⟩
  show (Assertions.verification AssertState.initial k').2 =
    Except.ok true ↔ 1 ≤ k'
  by_cases h : k' < 1
  all_goals simp [Assertions.verification, AssertState.initial, h]
  all_goals omega

/-- C6: an operation-matcher verification call sets the `verified` flag of
every interaction matching the matchers; the resulting log does not
depend on the quantifier state (so a failing evaluation marks exactly the
same interactions), flags are only ever set — never cleared — and the
marking is idempotent. -/
theorem verified_marking_unconditional (ast ast' : AssertState) (log : Log)
    (key : KvKeyMatcherArg) (options : Option GetOptionsSpec) :
    (Assertions.get ast log key options).2.1 =
      markOp log "get"
        (getCallPred (getKeyMatcher key) (consistencyMatcherOf options)) ∧
    (Assertions.get ast log key options).2.1 =
      (Assertions.get ast' log key options).2.1 ∧
    (∀ i ∈ getArray (Assertions.get ast log key options).2.1 "get",
      getCallPred (getKeyMatcher key) (consistencyMatcherOf options) i =
        true → i.verified = true) ∧
    (∀ i ∈ getArray (Assertions.get ast log key options).2.1 "get",
      ∃ j ∈ getArray log "get", i.args = j.args ∧
        i.verified = (j.verified ||
          getCallPred (getKeyMatcher key) (consistencyMatcherOf options) j)) ∧
    markOp (markOp log "get"
        (getCallPred (getKeyMatcher key) (consistencyMatcherOf options)))
      "get"
      (getCallPred (getKeyMatcher key) (consistencyMatcherOf options)) =
      markOp log "get"
        (getCallPred (getKeyMatcher key) (consistencyMatcherOf options)) := by
  have hlog : (Assertions.get ast log key options).2.1 =
      markOp log "get"
        (getCallPred (getKeyMatcher key) (consistencyMatcherOf options)) :=
    rfl
  refine ⟨rfl, rfl, ?_, ?_, ?_⟩
  · intro i hi hp
    rw [hlog, getArray_markOp, markMatching_eq_map] at hi
    rcases List.mem_map.mp hi with ⟨j, hj, rfl⟩
    have hpj : getCallPred (getKeyMatcher key) (consistencyMatcherOf options)
        j = true := by
      rw [← getCallPred_args_only (getKeyMatcher key)
        (consistencyMatcherOf options) _ j rfl]
      exact hp
    simp [hpj]
  · intro i hi
    rw [hlog, getArray_markOp, markMatching_eq_map] at hi
    rcases List.mem_map.mp hi with ⟨j, hj, rfl⟩
    exact ⟨j, hj, rfl, rfl⟩
  · exact markOp_idem log "get" _
      (fun a b b' => getCallPred_args_only _ _
        { args := a, verified := b } { args := a, verified := b' } rfl)

/-- C6 witness: a failing `never()` verification still marks the matching
`get(["x"])` interaction verified. -/
theorem verified_marking_unconditional_witness :
    ({ args := [Arg.key keyX], verified := true } : Interaction) ∈
      getArray (Assertions.get (Assertions.never AssertState.initial)
        [("get", [{ args := [Arg.key keyX], verified := false }])]
        (KvKeyMatcherArg.matcher Matchers.anyKey) none).2.1 "get" ∧
    (Assertions.get (Assertions.never AssertState.initial)
        [("get", [{ args := [Arg.key keyX], verified := false }])]
        (KvKeyMatcherArg.matcher Matchers.anyKey) none).2.2 =
      Except.error "Expected to never be called but was called 1 times" ∧
    ({ args := [Arg.key keyX], verified := true } : Interaction).verified =
      true := by
  refine ⟨by decide, rfl, ?_⟩
  exact (verified_marking_unconditional
    (Assertions.never AssertState.initial) AssertState.initial
    [("get", [{ args := [Arg.key keyX], verified := false }])]
    (KvKeyMatcherArg.matcher Matchers.anyKey) none).2.2.1
    { args := [Arg.key keyX], verified := true } (by decide) (by decide)

/-- C7: `noMoreInteractions()` returns `true` iff every recorded
interaction, across every operation in the log, has its `verified` flag
set; otherwise it throws an error whose message is built from the
unverified calls' operation names and argument values, showing at most
ten of them and appending a final line with the omitted count when more
than ten exist. -/
theorem noMoreInteractions_exhaustive (log : Log) :
    (Assertions.noMoreInteractions log = Except.ok true ↔
      ∀ p ∈ log, ∀ i ∈ p.2, i.verified = true) ∧
    (∀ p ∈ log, ∀ i ∈ p.2, i.verified = false →
      (p.1, i.args) ∈ unverifiedCalls log) ∧
    ((unverifiedCalls log).length ≤ 10 →
      unverifiedMessages log =
        (unverifiedCalls log).map (fun c => formatInteraction c.1 c.2)) ∧
    (10 < (unverifiedCalls log).length →
      unverifiedMessages log =
        ((unverifiedCalls log).take 10).map
          (fun c => formatInteraction c.1 c.2) ++
          ["... (" ++ toString ((unverifiedCalls log).length - 10) ++
            " more)"]) ∧
    (unverifiedMessages log).length ≤ 11 ∧
    ((¬ ∀ p ∈ log, ∀ i ∈ p.2, i.verified = true) →
      Assertions.noMoreInteractions log =
        Except.error ("There are unverified interactions: \n\n   " ++
          String.intercalate "\n   " (unverifiedMessages log) ++ "\n\n")) := by
  refine ⟨?_, ?_, ?_, ?_, ?_, ?_⟩
  · unfold Assertions.noMoreInteractions
    by_cases hm : (unverifiedMessages log).length = 0
    · rw [if_neg (by simp [hm])]
      exact iff_of_true rfl ((unverifiedCalls_eq_nil log).mp
        ((unverifiedMessages_eq_nil log).mp (List.length_eq_zero.mp hm)))
    · rw [if_pos (by simpa using hm)]
      constructor
      · intro hcontra
        exact absurd hcontra (by simp)
      · intro hall
        exact absurd
          (by rw [(unverifiedMessages_eq_nil log).mpr
              ((unverifiedCalls_eq_nil log).mpr hall)]; rfl) hm
  · intro p hp i hi hv
    unfold unverifiedCalls
    refine List.mem_flatMap.mpr ⟨p, hp, ?_⟩
    refine List.mem_map.mpr ⟨i, ?_, rfl⟩
    exact List.mem_filter.mpr ⟨hi, by simp [hv]⟩
  · intro h
    unfold unverifiedMessages
    rw [if_neg (by omega), List.take_of_length_le h]
  · intro h
    unfold unverifiedMessages
    rw [if_pos h]
  · unfold unverifiedMessages
    by_cases h : (unverifiedCalls log).length > 10
    · rw [if_pos h]
      simp [List.length_take]
    · rw [if_neg h]
      simp [List.length_take]
  · intro hall
    have hm : unverifiedMessages log ≠ [] := by
      intro hc
      exact hall ((unverifiedCalls_eq_nil log).mp
        ((unverifiedMessages_eq_nil log).mp hc))
    unfold Assertions.noMoreInteractions
    rw [if_pos (by simpa [List.length_eq_zero] using hm)]

/-- C7 witness: a log whose two interactions are both verified passes the
exhaustiveness check. -/
theorem noMoreInteractions_exhaustive_witness :
    Assertions.noMoreInteractions
      [("get", [{ args := [Arg.key keyX], verified := true }]),
        ("set", [{ args := [Arg.key keyX, Arg.value (KvValue.str "v")],
                   verified := true }])] = Except.ok true :=
  (noMoreInteractions_exhaustive _).1.mpr (by decide)

/-- C9: on the verification path, an interaction recorded without an
options argument satisfies the consistency condition trivially: for every
consistency matcher, the `get` (resp. `getMany`) filter predicate on such
an interaction reduces to the key (resp. key-list) matcher alone, and
when the key matcher accepts, the interaction is in the matched set. -/
theorem absent_options_trivially_matches
    (keyM : Matcher Key) (multiKeyM : Matcher (List Key))
    (consM : Matcher ConsistencyLevel) (k : Key) (ks : List Key)
    (b b' : Bool) :
    getCallPred keyM consM { args := [Arg.key k], verified := b } =
      keyM (some k) ∧
    getManyCallPred multiKeyM consM
      { args := [Arg.keys ks], verified := b' } = multiKeyM (some ks) ∧
    (∀ (log : Log) (i : Interaction), i ∈ getArray log "get" →
      i.args = [Arg.key k] → keyM (some k) = true →
      i ∈ (getArray log "get").filter (getCallPred keyM consM)) := by
  refine ⟨?_, ?_, ?_⟩
  · simp [getCallPred, Arg.asKey]
  · simp [getManyCallPred, Arg.asKeys]
  · intro log i hi hargs hkey
    refine List.mem_filter.mpr ⟨hi, ?_⟩
    have : getCallPred keyM consM i =
        getCallPred keyM consM { args := [Arg.key k], verified := i.verified } :=
      getCallPred_args_only keyM consM i _ hargs
    rw [this]
    simp [getCallPred, Arg.asKey, hkey]

/-- C9 witness: with a consistency matcher that only accepts `strong`, a
`get(["x"])` interaction recorded without options is still in the matched
set when the key matcher accepts it. -/
theorem absent_options_trivially_matches_witness :
    ({ args := [Arg.key keyX], verified := false } : Interaction) ∈
      (getArray [("get", [{ args := [Arg.key keyX], verified := false }])]
        "get").filter
        (getCallPred Matchers.anyKey
          (Matchers.eq (some ConsistencyLevel.strong))) :=
  (absent_options_trivially_matches Matchers.anyKey (MultiKeyMatcher [])
    (Matchers.eq (some ConsistencyLevel.strong)) keyX [] false false).2.2
    [("get", [{ args := [Arg.key keyX], verified := false }])]
    { args := [Arg.key keyX], verified := false }
    (by decide) rfl rfl

end MockKv
